import Mathlib

/-!
Shallow embedding of the core logic of the medical-appointment-scheduling
agent (src/src/workflow.py and src/src/agents/*.py), together with theorems
checking the design specification against it.

Conventions of the embedding:
* Python strings are Lean `String`; an absent/falsy string field of the
  shared state dict is the empty string, matching the initial state built in
  workflow.py (all string fields start as "").
* `datetime` values are split into a `Date` (Gregorian calendar triple) and a
  time-of-day in minutes since midnight (`Nat`), which is exactly the
  information the code stores and compares.
* `datetime.strptime` calls are embedded by explicit parsers
  (`parseYMD`, `parseDMY`, `parseHM`, `parseMDY`) that accept precisely the
  strings the corresponding Python format strings accept: `%Y` is exactly
  four digits, `%m`/`%d`/`%H`/`%M` are one or two digits, component values
  are range-checked and the day is checked against the month length, and the
  year must be at least 1 (`datetime.MINYEAR`).
* External collaborators (the LLM text generator, the Calendly/SendGrid/
  Twilio clients) are not part of the verified core; handlers that consult
  the LLM take the generated reply as a function parameter, and the Calendly
  path of the scheduler (guarded by a missing API key in the environment
  modelled here) is not taken.
-/

namespace MedSched

/-! ## Calendar arithmetic (embedding of datetime date handling) -/

/-- Gregorian leap-year test, as `datetime` implements it. -/
def isLeap (y : Nat) : Bool :=
  (y % 4 == 0 && y % 100 != 0) || (y % 400 == 0)

/-- Number of days in month `m` of year `y` (months are 1-based). -/
def daysInMonth (y m : Nat) : Nat :=
  if m = 2 then (if isLeap y then 29 else 28)
  else if m = 4 ∨ m = 6 ∨ m = 9 ∨ m = 11 then 30
  else 31

/-- A calendar date as `datetime.date` stores it. -/
structure Date where
  year : Nat
  month : Nat
  day : Nat
deriving DecidableEq, Repr

/-- The day before `d` (embedding of `d - timedelta(days=1)`). -/
def prevDay (d : Date) : Date :=
  if d.day > 1 then ⟨d.year, d.month, d.day - 1⟩
  else if d.month > 1 then ⟨d.year, d.month - 1, daysInMonth d.year (d.month - 1)⟩
  else ⟨d.year - 1, 12, 31⟩

/-- The day after `d` (embedding of `d + timedelta(days=1)`). -/
def nextDay (d : Date) : Date :=
  if d.day < daysInMonth d.year d.month then ⟨d.year, d.month, d.day + 1⟩
  else if d.month < 12 then ⟨d.year, d.month + 1, 1⟩
  else ⟨d.year + 1, 1, 1⟩

/-- `d - timedelta(days=n)`. -/
def subDays : Date → Nat → Date
  | d, 0 => d
  | d, n + 1 => subDays (prevDay d) n

/-- `d + timedelta(days=n)`. -/
def addDays : Date → Nat → Date
  | d, 0 => d
  | d, n + 1 => addDays (nextDay d) n

/-! ## Digit-string primitives shared by the strptime / regex embeddings -/

/-- Numeric value of a decimal digit character. -/
def digitVal (c : Char) : Nat := c.toNat - 48

/-- Value of a string of decimal digits, most significant first. -/
def natOfDigits (cs : List Char) : Nat :=
  cs.foldl (fun n c => n * 10 + digitVal c) 0

/-- All characters are decimal digits. -/
def allDigits (cs : List Char) : Bool := cs.all Char.isDigit

/-- Split a character list at every occurrence of `sep` (occurrences are
    removed; empty segments are kept), like Python `str.split(sep)`. -/
def splitOnChar (sep : Char) : List Char → List (List Char)
  | [] => [[]]
  | c :: cs =>
    let r := splitOnChar sep cs
    if c = sep then [] :: r
    else
      match r with
      | [] => [[c]]
      | h :: t => (c :: h) :: t

/-- Whitespace as Python `str.strip()` removes it (the characters occurring
    in this data). -/
def isWs (c : Char) : Bool := c = ' ' || c = '\t' || c = '\n' || c = '\r'

/-- Embedding of Python `str.strip()`. -/
def pyStrip (s : String) : String :=
  ⟨((s.data.dropWhile isWs).reverse.dropWhile isWs).reverse⟩

/-- ASCII lower-casing of one character (the doctor/location data is
    ASCII). -/
def lowerChar (c : Char) : Char :=
  if 'A' ≤ c ∧ c ≤ 'Z' then Char.ofNat (c.toNat + 32) else c

/-- Embedding of Python `str.lower()` on the ASCII data used here. -/
def pyLower (s : String) : String := ⟨s.data.map lowerChar⟩

/-- Left-pad the decimal representation of `n` with zeros to width 2
    (Python format 02d, used by strftime). -/
def pad2 (n : Nat) : String :=
  if n < 10 then "0" ++ toString n else toString n

/-- Left-pad the decimal representation of `n` with zeros to width 3
    (Python format 03d, used for patient ids). -/
def pad3 (n : Nat) : String :=
  if n < 10 then "00" ++ toString n
  else if n < 100 then "0" ++ toString n
  else toString n

/-- Left-pad the decimal representation of `n` with zeros to width 4
    (year field of strftime). -/
def pad4 (n : Nat) : String :=
  if n < 10 then "000" ++ toString n
  else if n < 100 then "00" ++ toString n
  else if n < 1000 then "0" ++ toString n
  else toString n

/-- Embedding of `strftime("%Y-%m-%d")`. -/
def formatYMD (d : Date) : String :=
  pad4 d.year ++ "-" ++ pad2 d.month ++ "-" ++ pad2 d.day

/-- Embedding of `strftime("%H:%M")` on a minutes-since-midnight value. -/
def formatHM (t : Nat) : String :=
  pad2 (t / 60) ++ ":" ++ pad2 (t % 60)

/-- Embedding of `datetime.strptime(s, "%Y-%m-%d")`: exactly four year
    digits, one or two month and day digits, values range-checked. -/
def parseYMD (s : String) : Option Date :=
  match splitOnChar '-' s.data with
  | [ys, ms, ds] =>
    if ys.length = 4 ∧ allDigits ys ∧
       1 ≤ ms.length ∧ ms.length ≤ 2 ∧ allDigits ms ∧
       1 ≤ ds.length ∧ ds.length ≤ 2 ∧ allDigits ds then
      let y := natOfDigits ys
      let m := natOfDigits ms
      let d := natOfDigits ds
      if 1 ≤ y ∧ 1 ≤ m ∧ m ≤ 12 ∧ 1 ≤ d ∧ d ≤ daysInMonth y m then
        some ⟨y, m, d⟩
      else none
    else none
  | _ => none

/-- Embedding of `datetime.strptime(s, "%d/%m/%Y")` (the fallback date
    format of the schedule reader). -/
def parseDMY (s : String) : Option Date :=
  match splitOnChar '/' s.data with
  | [ds, ms, ys] =>
    if 1 ≤ ds.length ∧ ds.length ≤ 2 ∧ allDigits ds ∧
       1 ≤ ms.length ∧ ms.length ≤ 2 ∧ allDigits ms ∧
       ys.length = 4 ∧ allDigits ys then
      let y := natOfDigits ys
      let m := natOfDigits ms
      let d := natOfDigits ds
      if 1 ≤ y ∧ 1 ≤ m ∧ m ≤ 12 ∧ 1 ≤ d ∧ d ≤ daysInMonth y m then
        some ⟨y, m, d⟩
      else none
    else none
  | _ => none

/-- Embedding of `datetime.strptime(s, "%m/%d/%Y")` (the patient
    date-of-birth format used by the greeting and lookup agents). -/
def parseMDY (s : String) : Option Date :=
  match splitOnChar '/' s.data with
  | [ms, ds, ys] =>
    if 1 ≤ ms.length ∧ ms.length ≤ 2 ∧ allDigits ms ∧
       1 ≤ ds.length ∧ ds.length ≤ 2 ∧ allDigits ds ∧
       ys.length = 4 ∧ allDigits ys then
      let y := natOfDigits ys
      let m := natOfDigits ms
      let d := natOfDigits ds
      if 1 ≤ y ∧ 1 ≤ m ∧ m ≤ 12 ∧ 1 ≤ d ∧ d ≤ daysInMonth y m then
        some ⟨y, m, d⟩
      else none
    else none
  | _ => none

/-- Embedding of `strptime(s, "%H:%M")` as minutes since midnight. -/
def parseHM (s : String) : Option Nat :=
  match splitOnChar ':' s.data with
  | [hs, ms] =>
    if 1 ≤ hs.length ∧ hs.length ≤ 2 ∧ allDigits hs ∧
       1 ≤ ms.length ∧ ms.length ≤ 2 ∧ allDigits ms then
      let h := natOfDigits hs
      let m := natOfDigits ms
      if h ≤ 23 ∧ m ≤ 59 then some (h * 60 + m) else none
    else none
  | _ => none

/-- The date parsing performed per schedule row in
    `_generate_slots_from_schedule`: strptime with `%Y-%m-%d` first, then
    the `%d/%m/%Y` fallback. -/
def parseRowDate (s : String) : Option Date :=
  (parseYMD s).orElse (fun _ => parseDMY s)

/-- Interprets a 12-hour clock string such as "10:00 AM" or "2:00 PM" as
    minutes since midnight. This is not repository code: it is the
    denotation function used to compare the reminder times the code stores
    as 12-hour strings against the 24-hour times named by the spec. -/
def parse12h (s : String) : Option Nat :=
  match splitOnChar ' ' s.data with
  | [ts, ap] =>
    match splitOnChar ':' ts with
    | [hs, ms] =>
      if 1 ≤ hs.length ∧ hs.length ≤ 2 ∧ allDigits hs ∧
         ms.length = 2 ∧ allDigits ms then
        let h := natOfDigits hs
        let m := natOfDigits ms
        if 1 ≤ h ∧ h ≤ 12 ∧ m ≤ 59 then
          if ap = ['P', 'M'] then some ((h % 12 + 12) * 60 + m)
          else if ap = ['A', 'M'] then some ((h % 12) * 60 + m)
          else none
        else none
      else none
    | _ => none
  | _ => none

/-! ## ReminderAgent._calculate_reminder_dates (reminder_agent.py 187-216) -/

/-- One reminder descriptor as built by `_calculate_reminder_dates`. -/
structure Reminder where
  date : String
  time : String
  rtype : String
  message : String
deriving DecidableEq, Repr

/-- Embedding of `ReminderAgent._calculate_reminder_dates`. `now` stands
    for `datetime.now()`, used only by the unparseable-date fallback. -/
def calculateReminderDates (now : Date) (appointmentDate : String) : List Reminder :=
  let apptDate :=
    match parseYMD appointmentDate with
    | some d => d
    | none => addDays now 7
  [ { date := formatYMD (subDays apptDate 3), time := "10:00 AM",
      rtype := "standard", message := "Standard appointment reminder" },
    { date := formatYMD (subDays apptDate 1), time := "2:00 PM",
      rtype := "form_check", message := "Form completion verification" },
    { date := formatYMD apptDate, time := "8:00 AM",
      rtype := "confirmation", message := "Final confirmation and cancellation check" } ]

/-! ## SchedulerAgent._generate_slots_from_schedule (scheduler_agent.py 186-274) -/

/-- One row of the doctor-schedule table, with the field values as the code
    reads them from the dataframe. `available_slots` is `some a` when the
    cell holds a number convertible by `int` (`isinstance(avail, (int, float))`
    and not NaN) and `none` otherwise; `booked_slots` is `some b` for a
    numeric cell (a missing column defaults to `some 0` via
    `row.get(..., 0)`) and `none` for a NaN cell, whose `int(booked or 0)`
    conversion raises and disables the capacity cap. -/
structure Row where
  date : String
  start_time : String
  end_time : String
  doctor_name : String
  hospital_name : String
  location : String
  available_slots : Option Int
  booked_slots : Option Int
deriving DecidableEq, Repr

/-- A generated slot. The code builds a dict of the four strftime / column
    strings; here the date and time are kept as the parsed values they are
    formatted from (`formatYMD`/`formatHM` reproduce the dict strings). -/
structure Slot where
  date : Date
  time : Nat
  doctor : String
  location : String
deriving DecidableEq, Repr

/-- Fuel-indexed form of the slot-emitting while-loop of
    `_generate_slots_from_schedule`: starting at `cur`, emit a time and
    advance by `dur` minutes while `cur + dur` does not pass `endT`. The
    loop only runs with `dur` equal to 30 or 60; the fuel makes the Lean
    function structurally recursive, and `walkSlots` supplies enough fuel
    for every positive duration. -/
def walkFrom (endT dur : Nat) : Nat → Nat → List Nat
  | 0, _ => []
  | fuel + 1, cur =>
    if cur + dur ≤ endT then cur :: walkFrom endT dur fuel (cur + dur) else []

/-- The while-loop of `_generate_slots_from_schedule`, with the fuel bound
    `endT + 1 - cur` that is never exhausted when `0 < dur`. -/
def walkSlots (cur endT dur : Nat) : List Nat :=
  walkFrom endT dur (endT + 1 - cur) cur

/-- Slots generated for a single schedule row: parse the date (ISO first,
    then `%d/%m/%Y`), start and end times, walk the window at the requested
    duration, then apply the capacity cap `generated[:avail - booked]`
    when both counts are numeric (scheduler_agent.py 213-263). -/
def rowSlots (dur : Nat) (r : Row) : List Slot :=
  match parseRowDate r.date, parseHM r.start_time, parseHM r.end_time with
  | some d, some st, some en =>
    let generated := (walkSlots st en dur).map (fun t =>
      { date := d, time := t, doctor := pyStrip r.doctor_name,
        location := if pyStrip r.hospital_name ≠ "" then pyStrip r.hospital_name
                    else pyStrip r.location : Slot })
    match r.available_slots, r.booked_slots with
    | some a, some b =>
      if a - b > 0 then generated.take (a - b).toNat else []
    | _, _ => generated
  | _, _, _ => []

/-- Substring test on character lists (Python `in` / `str.contains` with a
    pattern free of regex metacharacters, as the plain location names used
    here are). -/
def infixOf (needle : List Char) : List Char → Bool
  | [] => needle.isEmpty
  | c :: t => needle.isPrefixOf (c :: t) || infixOf needle t

/-- The optional doctor/location filters of `_generate_slots_from_schedule`
    (lines 203-207): doctor by case-insensitive stripped equality, location
    by case-insensitive stripped substring containment. An absent (`None`)
    or empty filter string is falsy in Python and leaves the table whole. -/
def filterRows (rows : List Row) (doctorName location : Option String) : List Row :=
  let df1 :=
    match doctorName with
    | some dn =>
      if dn ≠ "" then
        rows.filter (fun r => pyLower (pyStrip r.doctor_name) = pyLower (pyStrip dn))
      else rows
    | none => rows
  match location with
  | some lc =>
    if lc ≠ "" then
      df1.filter (fun r =>
        infixOf (pyLower (pyStrip lc)).data (pyLower (pyStrip r.location)).data)
    else df1
  | none => df1

/-- Sort key of the final `slots.sort`: slots are compared by their parsed
    (date, time); formatting then reparsing the emitted strings is the
    identity on these values. -/
def slotKey (s : Slot) : Nat :=
  (s.date.year * 10000 + s.date.month * 100 + s.date.day) * 1440 + s.time

/-- Comparison relation used to embed the stable `slots.sort`. -/
def slotLe (a b : Slot) : Prop := slotKey a ≤ slotKey b

instance : DecidableRel slotLe := fun a b =>
  inferInstanceAs (Decidable (slotKey a ≤ slotKey b))

instance : IsTotal Slot slotLe := ⟨fun a b => Nat.le_total (slotKey a) (slotKey b)⟩

instance : IsTrans Slot slotLe := ⟨fun _ _ _ => Nat.le_trans⟩

/-- The rows `_generate_slots_from_schedule` iterates over: the filtered
    table, or the whole table again when the filters matched nothing
    (`if df.empty: df = self.schedule_df`, lines 209-210). -/
def effectiveRows (rows : List Row) (doctorName location : Option String) : List Row :=
  let df := filterRows rows doctorName location
  if df.isEmpty then rows else df

/-- Embedding of `SchedulerAgent._generate_slots_from_schedule`: empty
    table check, optional filters with whole-table fallback, per-row slot
    generation, and a stable ascending sort by (date, time). -/
def generateSlots (rows : List Row) (doctorName location : Option String)
    (dur : Nat) : List Slot :=
  if rows.isEmpty then []
  else
    let df := effectiveRows rows doctorName location
    List.insertionSort slotLe ((df.map (rowSlots dur)).flatten)

/-- The candidate slot positions described by the availability-planner
    sentence of the spec. Modelled from the spec: walk a cursor from the
    start time in fixed 30-minute increments, emitting one slot per cursor
    position for which cursor + duration does not pass the end time. -/
def specWalkFrom (endT dur : Nat) : Nat → Nat → List Nat
  | 0, _ => []
  | fuel + 1, cur =>
    if cur + dur ≤ endT then cur :: specWalkFrom endT dur fuel (cur + 30) else []

/-- The spec-side 30-minute-increment walk with sufficient fuel. -/
def specWalk30 (cur endT dur : Nat) : List Nat :=
  specWalkFrom endT dur (endT + 1 - cur) cur

/-! ## The shared conversation record (workflow.py 10-30, AppointmentState) -/

/-- A chat message (langchain HumanMessage / AIMessage / SystemMessage). -/
inductive Msg where
  | human (content : String)
  | ai (content : String)
  | system (content : String)
deriving DecidableEq, Repr

/-- Content of a message. -/
def Msg.content : Msg → String
  | .human c => c
  | .ai c => c
  | .system c => c

/-- The private greeting sub-stage stored under
    `conversation_stage_greeting`; the code only ever assigns the two
    string values modelled by this enumeration. -/
inductive GStage where
  | demographics
  | doctor_details
deriving DecidableEq, Repr

/-- The `AppointmentState` dict of workflow.py. String fields are
    initialised to the empty string (falsy, i.e. absent);
    `conversation_stage_greeting` is a key added dynamically by the
    greeting agent, hence optional. -/
structure AppState where
  messages : List Msg
  patient_name : String
  date_of_birth : String
  phone : String
  email : String
  preferred_doctor : String
  location : String
  patient_type : String
  patient_id : String
  insurance_carrier : String
  member_id : String
  group_number : String
  appointment_date : String
  appointment_time : String
  appointment_duration : Nat
  forms_sent : Bool
  confirmation_sent : Bool
  reminders_scheduled : Bool
  conversation_stage : String
  available_slots : List Slot
  conversation_stage_greeting : Option GStage
deriving DecidableEq, Repr

/-- Append one AI reply to the record
    (state.messages.append of an AIMessage in the source). -/
def appendAI (s : AppState) (c : String) : AppState :=
  { s with messages := s.messages ++ [Msg.ai c] }

/-! ## GreetingAgent (greeting_agent.py) -/

/-- Embedding of `GreetingAgent._get_missing_info` (lines 70-87). -/
def getMissingInfo (s : AppState) : List String :=
  (if s.patient_name = "" then ["full name"] else []) ++
  (if s.date_of_birth = "" then ["date of birth"] else []) ++
  (if s.phone = "" then ["phone number"] else []) ++
  (if s.email = "" then ["email address"] else []) ++
  (if s.preferred_doctor = "" then ["preferred doctor"] else []) ++
  (if s.location = "" then ["preferred location"] else [])

/-- Separator class of the date-of-birth regex (a slash or a hyphen). -/
def isSep (c : Char) : Bool := c = '/' || c = '-'

/-- Matches exactly the four digits of the regex group `\d{4}` at the
    front of the input. -/
def grabYear : List Char → Option (List Char)
  | a :: b :: c :: d :: _ =>
    if a.isDigit ∧ b.isDigit ∧ c.isDigit ∧ d.isDigit then some [a, b, c, d] else none
  | _ => none

/-- Matches `[SEP]\d{4}`: one separator, then the year group. -/
def afterD2 : List Char → Option (Char × List Char)
  | c :: rest => if isSep c then (grabYear rest).map (fun y => (c, y)) else none
  | [] => none

/-- Matches `\d{1,2}[SEP]\d{4}` with the greedy two-digit attempt first,
    backtracking to one digit, exactly as the regex engine does. -/
def grabD2 (cs : List Char) : Option (List Char × Char × List Char) :=
  (match cs with
   | a :: b :: rest =>
     if a.isDigit ∧ b.isDigit then (afterD2 rest).map (fun (p : Char × List Char) => ([a, b], p.1, p.2))
     else none
   | _ => none).orElse (fun _ =>
    match cs with
    | a :: rest =>
      if a.isDigit then (afterD2 rest).map (fun (p : Char × List Char) => ([a], p.1, p.2)) else none
    | _ => none)

/-- Matches `[SEP]\d{1,2}[SEP]\d{4}`. -/
def afterD1 : List Char → Option (Char × List Char × Char × List Char)
  | c :: rest =>
    if isSep c then (grabD2 rest).map (fun (q : List Char × Char × List Char) => (c, q.1, q.2.1, q.2.2)) else none
  | [] => none

/-- Matches the full date-of-birth pattern `\d{1,2}[SEP]\d{1,2}[SEP]\d{4}`
    anchored at the front of the input, returning the three digit groups
    and the two separators. -/
def matchDobAt (cs : List Char) : Option (List Char × Char × List Char × Char × List Char) :=
  (match cs with
   | a :: b :: rest =>
     if a.isDigit ∧ b.isDigit then
       (afterD1 rest).map (fun (q : Char × List Char × Char × List Char) => ([a, b], q.1, q.2.1, q.2.2.1, q.2.2.2))
     else none
   | _ => none).orElse (fun _ =>
    match cs with
    | a :: rest =>
      if a.isDigit then
        (afterD1 rest).map (fun (q : Char × List Char × Char × List Char) => ([a], q.1, q.2.1, q.2.2.1, q.2.2.2))
      else none
    | _ => none)

/-- Embedding of `re.search` for the date-of-birth pattern: the leftmost
    position at which the pattern matches wins. -/
def dobSearch : List Char → Option (List Char × Char × List Char × Char × List Char)
  | [] => none
  | c :: cs =>
    match matchDobAt (c :: cs) with
    | some r => some r
    | none => dobSearch cs

/-- The date-of-birth update of `GreetingAgent._extract_patient_info`
    (greeting_agent.py 107-117), as a function from the current
    date_of_birth value (`none` when absent or empty) and the message to
    the new value: search for the first `\d{1,2}[SEP]\d{1,2}[SEP]\d{4}`
    match, normalise separators to `/`, keep it only if
    strptime with format "%m/%d/%Y" accepts it, and never overwrite an existing
    value. The other field updates of `_extract_patient_info` neither read
    nor write date_of_birth. -/
def extractDOB (cur : Option String) (message : String) : Option String :=
  match dobSearch message.data with
  | some (d1, _, d2, _, y) =>
    match cur with
    | some d => some d
    | none =>
      let m := natOfDigits d1
      let dy := natOfDigits d2
      let yv := natOfDigits y
      if 1 ≤ yv ∧ 1 ≤ m ∧ m ≤ 12 ∧ 1 ≤ dy ∧ dy ≤ daysInMonth yv m then
        some ⟨d1 ++ '/' :: (d2 ++ '/' :: y)⟩
      else cur
  | none => cur

/-- Python `", ".join(l)`. -/
def joinComma (l : List String) : String := String.intercalate ", " l

/-- Python `l[-n:]`. -/
def lastN (n : Nat) (l : List α) : List α := l.drop (l.length - n)

/-- Modelled from the spec: `GreetingAgent._get_system_prompt` is called
    (greeting_agent.py 36 and 52) but defined nowhere in src/; per the
    spec the text generator receives a system instruction for the current
    collection stage. -/
def getSystemPrompt : GStage → String
  | .demographics =>
    "You are a friendly medical scheduling assistant collecting the patient name, date of birth, phone number and email address."
  | .doctor_details =>
    "You are a friendly medical scheduling assistant collecting the preferred doctor and location."

/-- Embedding of `GreetingAgent.process` (greeting_agent.py 11-68). The
    text generator (`self.llm.invoke`) is the external collaborator `llm`,
    and the field extraction `_extract_patient_info` is the record update
    `extract`; the source extractor only writes the six demographic
    fields. -/
def greetingProcess (llm : List Msg → String) (extract : AppState → String → AppState)
    (s0 : AppState) : AppState :=
  let s1 :=
    if s0.conversation_stage_greeting = none then
      { s0 with conversation_stage_greeting := some GStage.demographics }
    else s0
  let s2 :=
    match s1.messages.getLast? with
    | some m => extract s1 m.content
    | none => s1
  let g := s2.conversation_stage_greeting.getD GStage.demographics
  let missing := getMissingInfo s2
  if missing.isEmpty then
    match g with
    | GStage.demographics =>
      let s3 := { s2 with conversation_stage_greeting := some GStage.doctor_details }
      let missing2 := getMissingInfo s3
      if missing2.isEmpty then
        appendAI { s3 with conversation_stage := "lookup" }
          "Perfect! I have all your information. Let me look up your records and check appointment availability."
      else
        appendAI s3 (llm
          ([Msg.system (getSystemPrompt GStage.doctor_details),
            Msg.human ("Patient needs to provide: " ++ joinComma missing2 ++
              ". Generate a friendly response asking for all the missing doctor details at once.")] ++
            lastN 3 s3.messages))
    | GStage.doctor_details =>
      appendAI { s2 with conversation_stage := "lookup" }
        "Perfect! I have all your information. Let me look up your records and check appointment availability."
  else
    appendAI s2 (llm
      ([Msg.system (getSystemPrompt g),
        Msg.human ("Patient needs to provide: " ++ joinComma missing ++
          ". Generate a friendly response asking for all the missing information at once.")] ++
        lastN 3 s2.messages))

/-! ## InsuranceAgent (insurance_agent.py) and the stage router
    (workflow.py 98-132) -/

/-- Embedding of `InsuranceAgent._get_missing_insurance_info`
    (insurance_agent.py 56-67). -/
def getMissingInsuranceInfo (s : AppState) : List String :=
  (if s.insurance_carrier = "" then ["insurance carrier"] else []) ++
  (if s.member_id = "" then ["member ID"] else []) ++
  (if s.group_number = "" then ["group number"] else [])

/-- Embedding of `InsuranceAgent._generate_insurance_request`
    (insurance_agent.py 69-102); the long card-reading instructions are
    abbreviated, which no theorem below inspects. -/
def generateInsuranceRequest (missing : List String) (s : AppState) : String :=
  if "insurance carrier" ∈ missing then
    "Now I need to collect your insurance information for billing purposes. What insurance do you have?"
  else if "member ID" ∈ missing then
    "Thank you! I have " ++ s.insurance_carrier ++ " as your insurance carrier. What is your Member ID?"
  else if "group number" ∈ missing then
    "Great! Last piece of insurance information I need is your Group Number. What is your Group Number?"
  else
    "I have all your insurance information. Let me proceed with the confirmation."

/-- Embedding of `InsuranceAgent.process` (insurance_agent.py 22-54). The
    insurance-field extraction `_extract_insurance_info` is the record
    update `extract`; the source extractor only writes the three insurance
    fields, and the stage assignment below does not depend on it. -/
def insuranceProcess (extract : AppState → String → AppState) (s : AppState) : AppState :=
  if s.appointment_date = "" ∨ s.appointment_time = "" then
    appendAI { s with conversation_stage := "scheduling" }
      "I need to confirm your appointment time before collecting insurance information."
  else
    let missing := getMissingInsuranceInfo s
    if missing.isEmpty then
      appendAI { s with conversation_stage := "confirmation" }
        "Perfect! I have all your insurance information. Let me confirm your appointment details."
    else
      let s1 :=
        match s.messages.getLast? with
        | some m => extract s m.content
        | none => s
      appendAI { s1 with conversation_stage := "insurance" }
        (generateInsuranceRequest missing s1)

/-- Embedding of
    `MedicalSchedulingWorkflow.should_continue_to_confirmation`
    (workflow.py 116-120). -/
def shouldContinueToConfirmation (s : AppState) : String :=
  if s.insurance_carrier ≠ "" ∧ s.member_id ≠ "" then "confirmation" else "insurance"

/-! ## SchedulerAgent.process (scheduler_agent.py 16-121), Excel-fallback
    path (no Calendly API key in the environment modelled here) -/

/-- Embedding of `SchedulerAgent._get_last_human_text`
    (scheduler_agent.py 123-127). -/
def lastHumanText (s : AppState) : String :=
  pyLower (pyStrip ((s.messages.reverse.findSome? (fun m =>
    match m with
    | Msg.human c => some c
    | _ => none)).getD ""))

/-- One numbered line of the fallback slot listing. -/
def slotLine (i : Nat) (s : Slot) : String :=
  toString (i + 1) ++ ". " ++ formatYMD s.date ++ " at " ++ formatHM s.time ++
    " - " ++ s.doctor ++ " (" ++ s.location ++ ")"

/-- The fallback slot-listing prompt built from the top five slots
    (scheduler_agent.py 110-116). -/
def slotPrompt (dur : Nat) (top : List Slot) : String :=
  "I found the following available " ++ toString dur ++
    "-minute slots based on our schedule: " ++
    String.intercalate " " (top.enum.map (fun p => slotLine p.1 p.2)) ++
    " Reply with the option number to select a slot, or tell me a different day or time."

/-- Embedding of `SchedulerAgent.process` on the Excel-fallback path. The
    slot-selection parser `_parse_slot_selection` is the parameter
    `parseSel`; the source parser returns only indexes below the given
    length, so the out-of-range lookup (which would raise in Python) is
    modelled as no selection. -/
def schedulerProcess (rows : List Row) (parseSel : String → Nat → Option Nat)
    (s0 : AppState) : AppState :=
  if s0.patient_type = "" then
    appendAI { s0 with conversation_stage := "lookup" }
      "I need to know if you are a new or returning patient before I can schedule an appointment."
  else if s0.appointment_date ≠ "" ∧ s0.appointment_time ≠ "" then
    { s0 with conversation_stage := "insurance" }
  else
    let duration := if s0.patient_type = "new" then 60 else 30
    let s1 := { s0 with appointment_duration := duration }
    let humanText := lastHumanText s1
    let afterSel : Option AppState :=
      if s1.available_slots ≠ [] then
        match parseSel humanText s1.available_slots.length with
        | some ix =>
          match s1.available_slots.get? ix with
          | some slot =>
            some (appendAI
              { s1 with appointment_date := formatYMD slot.date,
                        appointment_time := formatHM slot.time,
                        conversation_stage := "insurance" }
              ("Booked " ++ formatYMD slot.date ++ " at " ++ formatHM slot.time ++
                " with " ++ slot.doctor ++ " at " ++ slot.location ++
                ". Now, let us collect your insurance information."))
          | none => none
        | none => none
      else none
    match afterSel with
    | some s2 => s2
    | none =>
      let slots := generateSlots rows (some s1.preferred_doctor) (some s1.location) duration
      let s2 := { s1 with available_slots := slots }
      if slots.isEmpty then
        appendAI { s2 with conversation_stage := "scheduling" }
          "We could not access online scheduling and no local schedule is available. Please provide your preferred doctor and location, and I will try again."
      else
        appendAI { s2 with conversation_stage := "scheduling" }
          (slotPrompt duration (slots.take 5))

/-! ## Patient id allocation (lookup_agent.py 98-117) and the
    confirmation agent (confirmation_agent.py) -/

/-- Embedding of `re.search` for `P(\d+)` followed by the greedy capture:
    the digit run after the leftmost `P` that is followed by at least one
    digit. -/
def scanP : List Char → Option Nat
  | [] => none
  | c :: cs =>
    if c = 'P' then
      let ds := cs.takeWhile Char.isDigit
      if ds.isEmpty then scanP cs else some (natOfDigits ds)
    else scanP cs

/-- The successor of the maximal numeric id suffix (0 when no id parses),
    shared by `LookupAgent._generate_patient_id` and
    `ConfirmationAgent._add_new_patient_to_csv`, whose id computations are
    line-for-line identical. -/
def nextPatientNum (ids : List String) : Nat :=
  ((ids.filterMap (fun s => scanP s.data)).foldr max 0) + 1

/-- Embedding of `LookupAgent._generate_patient_id`: on an empty directory
    the branches of the source return "P001" = P(0 + 1) directly. -/
def generatePatientId (ids : List String) : String :=
  "P" ++ pad3 (nextPatientNum ids)

/-- One persisted patient row of data/patients.csv. -/
structure PRecord where
  patient_id : String
  first_name : String
  last_name : String
  date_of_birth : String
  phone_number : String
  email : String
  preferred_doctor : String
  location : String
  last_visit_date : String
deriving DecidableEq, Repr

/-- Python `str.split()`: split on whitespace runs, dropping empties. -/
def wordsAux : List Char → List Char → List (List Char)
  | [], acc => if acc.isEmpty then [] else [acc.reverse]
  | c :: cs, acc =>
    if isWs c then
      (if acc.isEmpty then wordsAux cs [] else acc.reverse :: wordsAux cs [])
    else wordsAux cs (c :: acc)

/-- Python `str.split()` on a string. -/
def splitWs (s : String) : List String := (wordsAux s.data []).map (fun cs => ⟨cs⟩)

/-- Embedding of `ConfirmationAgent._validate_appointment_info`
    (confirmation_agent.py 128-141): every required field truthy. -/
def validateAppointmentInfo (s : AppState) : Bool :=
  s.patient_name ≠ "" && s.date_of_birth ≠ "" && s.phone ≠ "" && s.email ≠ "" &&
  s.preferred_doctor ≠ "" && s.location ≠ "" && s.patient_type ≠ "" &&
  s.appointment_date ≠ "" && s.appointment_time ≠ "" &&
  s.appointment_duration ≠ 0 &&
  s.insurance_carrier ≠ "" && s.member_id ≠ "" && s.group_number ≠ ""

/-- Embedding of `ConfirmationAgent._add_new_patient_to_csv`
    (confirmation_agent.py 71-126). `file` is the current content of
    data/patients.csv (`none` models FileNotFoundError, replaced by an
    empty frame); `today` stands for the current date formatted as "%Y-%m-%d".
    The CSV write is modelled as succeeding, so the state receives the
    recomputed patient id. -/
def addNewPatientToCsv (today : String) (file : Option (List PRecord))
    (s : AppState) : List PRecord × AppState :=
  let patients := file.getD []
  let newIdNum :=
    if patients.isEmpty then 1 else nextPatientNum (patients.map PRecord.patient_id)
  let newId := "P" ++ pad3 newIdNum
  let parts := splitWs s.patient_name
  let fn := parts.headD ""
  let ln := if parts.length > 1 then (parts.getLast?).getD "" else ""
  let recNew : PRecord :=
    ⟨newId, fn, ln, s.date_of_birth, s.phone, s.email, s.preferred_doctor,
     s.location, today⟩
  (patients ++ [recNew], { s with patient_id := newId })

/-- Embedding of `ConfirmationAgent.process` (confirmation_agent.py
    18-69). The Excel export and the notification sends are external
    effects modelled as succeeding; the first component of the result is
    the patients file after the call (written only on the new-patient
    path). -/
def confirmationProcess (today : String) (file : Option (List PRecord))
    (s : AppState) : Option (List PRecord) × AppState :=
  if validateAppointmentInfo s then
    let s1 := { s with confirmation_sent := true, conversation_stage := "forms" }
    if s.patient_type = "new" then
      let fr := addNewPatientToCsv today file s1
      (some fr.1, appendAI fr.2
        "APPOINTMENT CONFIRMED! Your appointment has been successfully scheduled and added to our system.")
    else
      (file, appendAI s1
        "APPOINTMENT CONFIRMED! Your appointment has been successfully scheduled and added to our system.")
  else
    (file, appendAI { s with conversation_stage := "insurance" }
      "I am missing some information to confirm your appointment. Let me get those details.")

/-! ## Concrete example data used by the theorems below -/

/-- A schedule row with a two-hour window and no capacity counts. -/
def exRow1 : Row :=
  { date := "2025-03-10", start_time := "09:00", end_time := "11:00",
    doctor_name := "Dr. Lee", hospital_name := "", location := "Downtown Clinic",
    available_slots := none, booked_slots := none }

/-- A schedule row with a ten-hour window and no capacity counts. -/
def longRow : Row :=
  { date := "2025-03-10", start_time := "08:00", end_time := "18:00",
    doctor_name := "Dr. Lee", hospital_name := "", location := "Downtown Clinic",
    available_slots := none, booked_slots := none }

/-- A schedule row with capacity 3 of which 1 is booked. -/
def capRow : Row :=
  { date := "2025-03-10", start_time := "09:00", end_time := "11:00",
    doctor_name := "Dr. Lee", hospital_name := "", location := "Downtown Clinic",
    available_slots := some 3, booked_slots := some 1 }

/-- A fully collected conversation record for a new patient (the shape the
    record has when the confirmation stage runs). -/
def exSt : AppState :=
  { messages := [Msg.human "hi"], patient_name := "John Doe",
    date_of_birth := "01/15/1990", phone := "987-654-3210", email := "j@x.com",
    preferred_doctor := "Dr. Lee", location := "Downtown Clinic",
    patient_type := "new", patient_id := "P002", insurance_carrier := "Aetna",
    member_id := "AB123456", group_number := "G123",
    appointment_date := "2025-03-10", appointment_time := "09:00",
    appointment_duration := 60, forms_sent := false, confirmation_sent := false,
    reminders_scheduled := false, conversation_stage := "confirmation",
    available_slots := [], conversation_stage_greeting := none }

/-- A persisted patients file whose highest id suffix is 5. -/
def exFile : List PRecord :=
  [⟨"P005", "Ada", "Lovelace", "1990-01-01", "555-000-1111", "a@x.com",
    "Dr. Lee", "Downtown Clinic", "2024-01-01"⟩]

/-- Shape invariant of the groups captured by the date-of-birth regex:
    one or two digits, one or two digits, exactly four digits. -/
def DobParts (d1 d2 y : List Char) : Prop :=
  d1.all Char.isDigit = true ∧ 1 ≤ d1.length ∧ d1.length ≤ 2 ∧
  d2.all Char.isDigit = true ∧ 1 ≤ d2.length ∧ d2.length ≤ 2 ∧
  y.all Char.isDigit = true ∧ y.length = 4

/-! ## Helper lemmas -/

/-- Characterisation of the slot-emitting loop, fuel-indexed form: with
    enough fuel the loop emits exactly the cursor positions
    `cur + i * dur` whose slot still fits before the end time. -/
theorem walkFrom_mem (en dur : Nat) (hdur : 0 < dur) :
    ∀ fuel cur t, en + 1 - cur ≤ fuel →
      (t ∈ walkFrom en dur fuel cur ↔ ∃ i, t = cur + i * dur ∧ t + dur ≤ en) := by
  intro fuel
  induction fuel with
  | zero =>
    intro cur t hf
    constructor
    · intro h
      simp [walkFrom] at h
    · rintro ⟨i, rfl, hle⟩
      have h1 : cur ≤ cur + i * dur := Nat.le_add_right _ _
      omega
  | succ fuel ih =>
    intro cur t hf
    simp only [walkFrom]
    by_cases hg : cur + dur ≤ en
    · rw [if_pos hg]
      simp only [List.mem_cons]
      constructor
      · rintro (rfl | hm)
        · exact ⟨0, by omega, by omega⟩
        · have hf2 : en + 1 - (cur + dur) ≤ fuel := by omega
          obtain ⟨i, rfl, hle⟩ := (ih (cur + dur) t hf2).1 hm
          exact ⟨i + 1, by ring, hle⟩
      · rintro ⟨i, rfl, hle⟩
        cases i with
        | zero => left; omega
        | succ j =>
          right
          have hf2 : en + 1 - (cur + dur) ≤ fuel := by omega
          exact (ih (cur + dur) _ hf2).2 ⟨j, by ring, hle⟩
    · rw [if_neg hg]
      constructor
      · intro h
        exact absurd h (List.not_mem_nil t)
      · rintro ⟨i, rfl, hle⟩
        have h1 : cur ≤ cur + i * dur := Nat.le_add_right _ _
        omega

/-- Every member of a list of naturals is bounded by its max-fold. -/
theorem mem_le_foldr_max : ∀ (l : List Nat), ∀ m ∈ l, m ≤ l.foldr max 0 := by
  intro l
  induction l with
  | nil => intro m hm; cases hm
  | cons a t ih =>
    intro m hm
    rcases List.mem_cons.mp hm with rfl | hm2
    · exact Nat.le_max_left _ _
    · exact Nat.le_trans (ih m hm2) (Nat.le_max_right _ _)

/-! ## C6: the reminder planner -/

/-- C6: for every appointment date parsing as YYYY-MM-DD, the reminder
    planner emits exactly the three descriptors (date minus 3 days at
    10:00, type standard), (date minus 1 day at 14:00, type form_check)
    and (date at 08:00, type confirmation); the stored 12-hour strings
    denote the 24-hour times 10:00, 14:00 and 08:00. -/
theorem c6_reminder_schedule (now : Date) (s : String) (d : Date)
    (h : parseYMD s = some d) :
    calculateReminderDates now s =
      [ { date := formatYMD (subDays d 3), time := "10:00 AM",
          rtype := "standard", message := "Standard appointment reminder" },
        { date := formatYMD (subDays d 1), time := "2:00 PM",
          rtype := "form_check", message := "Form completion verification" },
        { date := formatYMD d, time := "8:00 AM",
          rtype := "confirmation",
          message := "Final confirmation and cancellation check" } ] ∧
    parse12h "10:00 AM" = some 600 ∧ parse12h "2:00 PM" = some 840 ∧
    parse12h "8:00 AM" = some 480 := by
  refine ⟨?_, by decide, by decide, by decide⟩
  simp [calculateReminderDates, h]

/-- Witness for C6 at the concrete appointment date of the spec. -/
theorem c6_reminder_schedule_witness :
    parseYMD "2025-03-10" = some ⟨2025, 3, 10⟩ ∧
    calculateReminderDates ⟨2025, 1, 1⟩ "2025-03-10" =
      [ ⟨"2025-03-07", "10:00 AM", "standard", "Standard appointment reminder"⟩,
        ⟨"2025-03-09", "2:00 PM", "form_check", "Form completion verification"⟩,
        ⟨"2025-03-10", "8:00 AM", "confirmation",
          "Final confirmation and cancellation check"⟩ ] := by
  refine ⟨by decide, ?_⟩
  rw [(c6_reminder_schedule ⟨2025, 1, 1⟩ "2025-03-10" ⟨2025, 3, 10⟩ (by decide)).1]
  decide

/-! ## C8: patient id allocation -/

/-- C8: patient id allocation is monotonic: every id suffix parsed from
    the directory is below the allocated next number, the directory
    containing P001, P003, P002 yields P004, and an empty directory
    yields P001. -/
theorem c8_id_allocation (ids : List String) (s : String) (n : Nat)
    (hs : s ∈ ids) (hn : scanP s.data = some n) :
    n < nextPatientNum ids ∧
    generatePatientId ["P001", "P003", "P002"] = "P004" ∧
    generatePatientId [] = "P001" := by
  refine ⟨?_, by decide, by decide⟩
  have hmem : n ∈ ids.filterMap (fun s => scanP s.data) :=
    List.mem_filterMap.mpr ⟨s, hs, hn⟩
  have hle := mem_le_foldr_max _ n hmem
  unfold nextPatientNum
  omega

/-- Witness for C8 at the concrete directory of the spec. -/
theorem c8_id_allocation_witness :
    "P003" ∈ ["P001", "P003", "P002"] ∧
    scanP "P003".data = some 3 ∧
    3 < nextPatientNum ["P001", "P003", "P002"] ∧
    generatePatientId ["P001", "P003", "P002"] = "P004" ∧
    generatePatientId [] = "P001" := by
  have h := c8_id_allocation ["P001", "P003", "P002"] "P003" 3
    (by decide) (by decide)
  exact ⟨by decide, by decide, h.1, h.2.1, h.2.2⟩

/-! ## C9: per-row capacity cap -/

/-- C9: for a schedule row with numeric capacity counts, the number of
    slots emitted for that row never exceeds the remaining capacity
    (available minus booked), and is zero when the remaining capacity is
    zero or negative. -/
theorem c9_capacity_cap (r : Row) (dur : Nat) (a b : Int)
    (ha : r.available_slots = some a) (hb : r.booked_slots = some b) :
    ((rowSlots dur r).length : Int) ≤ max (a - b) 0 ∧
    (a - b ≤ 0 → rowSlots dur r = []) := by
  have hnn : (0 : Int) ≤ max (a - b) 0 := le_max_right _ _
  cases hpd : parseRowDate r.date with
  | none =>
    have hr : rowSlots dur r = [] := by
      unfold rowSlots; rw [hpd]
    rw [hr]
    exact ⟨by simp, fun _ => rfl⟩
  | some d =>
    cases hst : parseHM r.start_time with
    | none =>
      have hr : rowSlots dur r = [] := by
        unfold rowSlots; rw [hpd, hst]
      rw [hr]
      exact ⟨by simp, fun _ => rfl⟩
    | some st =>
      cases hen : parseHM r.end_time with
      | none =>
        have hr : rowSlots dur r = [] := by
          unfold rowSlots; rw [hpd, hst, hen]
        rw [hr]
        exact ⟨by simp, fun _ => rfl⟩
      | some en =>
        have hr : rowSlots dur r =
            if a - b > 0 then
              ((walkSlots st en dur).map (fun t =>
                { date := d, time := t, doctor := pyStrip r.doctor_name,
                  location := if pyStrip r.hospital_name ≠ "" then pyStrip r.hospital_name
                              else pyStrip r.location : Slot })).take (a - b).toNat
            else [] := by
          unfold rowSlots; rw [hpd, hst, hen, ha, hb]
        rw [hr]
        by_cases hpos : a - b > 0
        · rw [if_pos hpos]
          constructor
          · have hlen := List.length_take_le (a - b).toNat
              ((walkSlots st en dur).map (fun t =>
                { date := d, time := t, doctor := pyStrip r.doctor_name,
                  location := if pyStrip r.hospital_name ≠ "" then pyStrip r.hospital_name
                              else pyStrip r.location : Slot }))
            have hcast : (((a - b).toNat : Int)) = a - b := Int.toNat_of_nonneg (by omega)
            have hmax : max (a - b) 0 = a - b := max_eq_left (by omega)
            rw [hmax, ← hcast]
            exact_mod_cast hlen
          · intro hle
            omega
        · rw [if_neg hpos]
          exact ⟨by simp, fun _ => rfl⟩

/-- Witness for C9 on a row with capacity 3 and 1 booked slot. -/
theorem c9_capacity_cap_witness :
    capRow.available_slots = some 3 ∧ capRow.booked_slots = some 1 ∧
    ((rowSlots 30 capRow).length : Int) ≤ max ((3 : Int) - 1) 0 ∧
    ((3 : Int) - 1 ≤ 0 → rowSlots 30 capRow = []) := by
  have h := c9_capacity_cap capRow 30 3 1 rfl rfl
  exact ⟨rfl, rfl, h.1, h.2⟩

/-! ## C1: the slot-emitting cursor walk -/

/-- C1 counterexample: on a row open 09:00-11:00 with a 60-minute
    duration, the code emits the cursor positions 09:00 and 10:00
    (stepping by the duration), while the claimed fixed 30-minute
    stepping would emit 09:00, 09:30 and 10:00. -/
theorem c1_counterexample :
    (rowSlots 60 exRow1).map Slot.time = [540, 600] ∧
    specWalk30 540 660 60 = [540, 570, 600] ∧
    (rowSlots 60 exRow1).map Slot.time ≠ specWalk30 540 660 60 := by decide

/-- C1 amended: for every schedule row with parseable date, start and end
    times (and no capacity cell), the planner emits one slot per cursor
    position, where the cursor starts at the start time and advances in
    increments equal to the required duration, keeping exactly the
    positions with cursor + duration bounded by the end time. -/
theorem c1_slot_walk (r : Row) (dur : Nat) (d : Date) (st en : Nat)
    (hd : parseRowDate r.date = some d) (hs : parseHM r.start_time = some st)
    (he : parseHM r.end_time = some en) (ha : r.available_slots = none)
    (hdur : 0 < dur) :
    (rowSlots dur r).map Slot.time = walkSlots st en dur ∧
    ∀ t, t ∈ walkSlots st en dur ↔ ∃ i, t = st + i * dur ∧ t + dur ≤ en := by
  constructor
  · have hr : rowSlots dur r = (walkSlots st en dur).map (fun t =>
        { date := d, time := t, doctor := pyStrip r.doctor_name,
          location := if pyStrip r.hospital_name ≠ "" then pyStrip r.hospital_name
                      else pyStrip r.location : Slot }) := by
      unfold rowSlots; rw [hd, hs, he, ha]
    rw [hr, List.map_map]
    exact List.map_id _
  · intro t
    exact walkFrom_mem en dur hdur (en + 1 - st) st t (le_refl _)

/-- Witness for C1 on the concrete 09:00-11:00 row with duration 60. -/
theorem c1_slot_walk_witness :
    parseRowDate exRow1.date = some ⟨2025, 3, 10⟩ ∧
    parseHM exRow1.start_time = some 540 ∧ parseHM exRow1.end_time = some 660 ∧
    exRow1.available_slots = none ∧ 0 < 60 ∧
    (rowSlots 60 exRow1).map Slot.time = walkSlots 540 660 60 := by
  have h := c1_slot_walk exRow1 60 ⟨2025, 3, 10⟩ 540 660
    (by decide) (by decide) (by decide) rfl (by decide)
  exact ⟨by decide, by decide, by decide, rfl, by decide, h.1⟩

/-! ## C3: the returned slot list -/

/-- C3 counterexample: a single ten-hour row at duration 30 makes the
    planner return 20 slots, more than the claimed cap of 10. -/
theorem c3_counterexample :
    (generateSlots [longRow] none none 30).length = 20 ∧
    ¬ (generateSlots [longRow] none none 30).length ≤ 10 := by decide

/-- C3 amended: the planner returns all generated slots of the effective
    row set, sorted ascending by (date, time); no cap of 10 is applied
    (only the interactive listing later shows the top five). -/
theorem c3_sorted_unbounded (rows : List Row) (dn lc : Option String) (dur : Nat) :
    List.Sorted slotLe (generateSlots rows dn lc dur) ∧
    (generateSlots rows dn lc dur).Perm
      (((effectiveRows rows dn lc).map (rowSlots dur)).flatten) := by
  unfold generateSlots
  by_cases h : rows.isEmpty = true
  · rw [if_pos h]
    have hnil : rows = [] := List.isEmpty_iff.mp h
    subst hnil
    have hf : filterRows ([] : List Row) dn lc = [] := by
      cases dn <;> cases lc <;> simp [filterRows]
    constructor
    · exact List.sorted_nil
    · simp [effectiveRows, hf]
  · rw [if_neg h]
    exact ⟨List.sorted_insertionSort slotLe _, List.perm_insertionSort slotLe _⟩

/-! ## C4: filters that match nothing -/

/-- C4 counterexample: with one row for Dr. Lee and a doctor filter for
    Dr. Bob, the filter matches nothing, yet the planner returns the
    non-matching slots of Dr. Lee instead of an empty list. -/
theorem c4_counterexample :
    filterRows [exRow1] (some "Dr. Bob") none = [] ∧
    generateSlots [exRow1] (some "Dr. Bob") none 30 ≠ [] ∧
    (generateSlots [exRow1] (some "Dr. Bob") none 30).map Slot.doctor =
      ["Dr. Lee", "Dr. Lee", "Dr. Lee", "Dr. Lee"] := by decide

/-- C4 amended: when the doctor/location filters match no schedule row,
    the planner falls back to the full table and behaves as if no filter
    had been given. -/
theorem c4_fallback_full_table (rows : List Row) (dn lc : Option String)
    (dur : Nat) (h : filterRows rows dn lc = []) :
    generateSlots rows dn lc dur = generateSlots rows none none dur := by
  have h2 : filterRows rows none none = rows := rfl
  simp only [generateSlots, effectiveRows, h, h2]
  by_cases hr : rows.isEmpty = true
  · simp [hr]
  · simp [hr]

/-- Witness for C4 on the concrete single-row table. -/
theorem c4_fallback_full_table_witness :
    filterRows [exRow1] (some "Dr. Bob") none = [] ∧
    generateSlots [exRow1] (some "Dr. Bob") none 30 =
      generateSlots [exRow1] none none 30 :=
  ⟨by decide, c4_fallback_full_table [exRow1] (some "Dr. Bob") none 30 (by decide)⟩

/-! ## C2: advancing from the insurance stage -/

/-- C2 counterexample: the router advances to confirmation on a record
    whose group_number is empty (it checks only carrier and member id);
    moreover a record missing the member id and the appointment date is
    routed back to scheduling, not kept at insurance. -/
theorem c2_counterexample :
    shouldContinueToConfirmation { exSt with group_number := "" } = "confirmation" ∧
    ({ exSt with group_number := "" } : AppState).group_number = "" ∧
    (insuranceProcess (fun s _ => s)
      { exSt with member_id := "", appointment_date := "" }).conversation_stage =
      "scheduling" ∧
    ({ exSt with member_id := "", appointment_date := "" } : AppState).member_id = "" := by
  decide

/-- C2 amended: the router advances from insurance to confirmation exactly
    when insurance_carrier and member_id are both set (group_number is not
    consulted); and for every record with an appointment date and time in
    which member_id is absent, processing the insurance stage leaves
    conversation_stage at insurance, for any insurance-field extractor. -/
theorem c2_router_requires (extract : AppState → String → AppState) (s : AppState) :
    (shouldContinueToConfirmation s = "confirmation" ↔
      s.insurance_carrier ≠ "" ∧ s.member_id ≠ "") ∧
    (s.appointment_date ≠ "" → s.appointment_time ≠ "" → s.member_id = "" →
      (insuranceProcess extract s).conversation_stage = "insurance") := by
  constructor
  · unfold shouldContinueToConfirmation
    by_cases h : s.insurance_carrier ≠ "" ∧ s.member_id ≠ ""
    · rw [if_pos h]
      exact ⟨fun _ => h, fun _ => rfl⟩
    · rw [if_neg h]
      exact ⟨fun he => absurd he (by decide), fun hc => absurd hc h⟩
  · intro hd ht hm
    unfold insuranceProcess
    rw [if_neg (by simp [hd, ht])]
    have hmem : "member ID" ∈ getMissingInsuranceInfo s := by
      unfold getMissingInsuranceInfo
      rw [if_pos hm]
      simp
    have hne : (getMissingInsuranceInfo s).isEmpty = false := by
      cases hq : (getMissingInsuranceInfo s).isEmpty
      · rfl
      · exact absurd (List.isEmpty_iff.mp hq) (List.ne_nil_of_mem hmem)
    simp only [hne, Bool.false_eq_true, if_false]
    cases hgl : s.messages.getLast? <;> simp [appendAI]

/-- Witness for C2 on the concrete record and its member-id-free variant. -/
theorem c2_router_requires_witness :
    exSt.appointment_date ≠ "" ∧ exSt.appointment_time ≠ "" ∧
    (shouldContinueToConfirmation exSt = "confirmation" ↔
      exSt.insurance_carrier ≠ "" ∧ exSt.member_id ≠ "") ∧
    (insuranceProcess (fun u _ => u)
      { exSt with member_id := "" }).conversation_stage = "insurance" := by
  have h1 := c2_router_requires (fun u _ => u) exSt
  have h2 := c2_router_requires (fun u _ => u) { exSt with member_id := "" }
  exact ⟨by decide, by decide, h1.1, h2.2 (by decide) (by decide) rfl⟩

/-! ## C5: one reply per handler invocation -/

/-- C5 counterexample: on a record that already has an appointment date
    and time, the scheduler handler returns without appending any reply
    (the message list is unchanged), refuting exactly-one. -/
theorem c5_counterexample :
    (schedulerProcess [] (fun _ _ => none) exSt).messages = exSt.messages ∧
    exSt.messages.length = 1 := by decide

/-- C5 amended: the greeting and insurance handlers append exactly one
    reply on every invocation; the scheduler handler appends exactly one
    reply unless the record already carries an appointment date and time
    together with a patient type, in which case it appends none and only
    advances the stage. Quantified over any extractor that leaves the
    message list unchanged (as the source extractors do) and any reply
    generator. -/
theorem c5_reply_counts (llm : List Msg → String)
    (extract : AppState → String → AppState) (rows : List Row)
    (parseSel : String → Nat → Option Nat) (s : AppState)
    (hext : ∀ u m, (extract u m).messages = u.messages) :
    (greetingProcess llm extract s).messages.length = s.messages.length + 1 ∧
    ((s.patient_type ≠ "" ∧ s.appointment_date ≠ "" ∧ s.appointment_time ≠ "") →
      (schedulerProcess rows parseSel s).messages = s.messages) ∧
    ((s.patient_type = "" ∨ s.appointment_date = "" ∨ s.appointment_time = "") →
      (schedulerProcess rows parseSel s).messages.length = s.messages.length + 1) ∧
    (insuranceProcess extract s).messages.length = s.messages.length + 1 := by
  refine ⟨?_, ?_, ?_, ?_⟩
  · simp only [greetingProcess]
    repeat' split
    all_goals simp [appendAI, hext]
  · rintro ⟨h1, h2, h3⟩
    unfold schedulerProcess
    rw [if_neg h1, if_pos ⟨h2, h3⟩]
  · intro hdis
    by_cases hpt : s.patient_type = ""
    · unfold schedulerProcess
      rw [if_pos hpt]
      simp [appendAI]
    · have hcond : ¬ (s.appointment_date ≠ "" ∧ s.appointment_time ≠ "") := by
        tauto
      unfold schedulerProcess
      rw [if_neg hpt, if_neg hcond]
      simp only []
      split
      next s2 heq =>
        repeat' split at heq
        all_goals first
          | (injection heq with h; subst h; simp [appendAI])
          | simp at heq
      next heq =>
        repeat' split
        all_goals simp [appendAI]
  · unfold insuranceProcess
    by_cases h1 : s.appointment_date = "" ∨ s.appointment_time = ""
    · rw [if_pos h1]
      simp [appendAI]
    · rw [if_neg h1]
      by_cases h2 : (getMissingInsuranceInfo s).isEmpty = true
      · rw [if_pos h2]
        simp [appendAI]
      · rw [if_neg h2]
        cases hgl : s.messages.getLast? <;> simp [appendAI, hext]

/-- Witness for C5 on the concrete record with and without a booked
    appointment. -/
theorem c5_reply_counts_witness :
    (greetingProcess (fun _ => "") (fun w _ => w) exSt).messages.length =
      exSt.messages.length + 1 ∧
    (schedulerProcess [] (fun _ _ => none) exSt).messages = exSt.messages := by
  have h := c5_reply_counts (fun _ => "") (fun w _ => w) [] (fun _ _ => none)
    exSt (fun _ _ => rfl)
  exact ⟨h.1, h.2.1 ⟨by decide, by decide, by decide⟩⟩

/-! ## C10: the confirmation handler recomputes the patient id -/

/-- C10: when confirmation succeeds for a new-patient record, the handler
    recomputes the patient id from the persisted patients file (maximum
    numeric suffix of P-prefixed ids plus one, zero-padded) and overwrites
    the record patient_id with it, whatever the record held before. -/
theorem c10_confirmation_id_overwrite (today : String)
    (file : Option (List PRecord)) (s : AppState)
    (hv : validateAppointmentInfo s = true) (hn : s.patient_type = "new") :
    (confirmationProcess today file s).2.patient_id =
      generatePatientId ((file.getD []).map PRecord.patient_id) := by
  unfold confirmationProcess
  rw [if_pos hv, if_pos hn]
  unfold addNewPatientToCsv
  simp only [appendAI]
  by_cases hp : (file.getD []).isEmpty = true
  · have hfe : file.getD [] = [] := List.isEmpty_iff.mp hp
    simp [hfe, generatePatientId, nextPatientNum]
  · simp [hp, generatePatientId]

/-- Witness for C10: the file holds P005, the record holds P002 from
    lookup, and confirmation overwrites the record with P006. -/
theorem c10_confirmation_id_overwrite_witness :
    validateAppointmentInfo exSt = true ∧ exSt.patient_type = "new" ∧
    (confirmationProcess "2025-01-01" (some exFile) exSt).2.patient_id =
      generatePatientId (exFile.map PRecord.patient_id) ∧
    generatePatientId (exFile.map PRecord.patient_id) = "P006" ∧
    exSt.patient_id = "P002" := by
  have h := c10_confirmation_id_overwrite "2025-01-01" (some exFile) exSt
    (by decide) rfl
  exact ⟨by decide, rfl, h, by decide, rfl⟩

/-! ## C7: date-of-birth extraction -/

/-- Destructuring of a successful `Option.orElse`. -/
theorem orElse_eq_some {α : Type} (o : Option α) (f : Unit → Option α) (v : α)
    (h : o.orElse f = some v) : o = some v ∨ (o = none ∧ f () = some v) := by
  cases o
  · right
    exact ⟨rfl, h⟩
  · left
    exact h

/-- A decimal digit is not a slash. -/
theorem digit_ne_slash (c : Char) (h : c.isDigit = true) : c ≠ '/' := by
  intro he
  subst he
  exact absurd h (by decide)

/-- The year matcher returns four digits. -/
theorem grabYear_spec : ∀ cs y, grabYear cs = some y →
    y.all Char.isDigit = true ∧ y.length = 4 := by
  intro cs y h
  rcases cs with _ | ⟨a, _ | ⟨b, _ | ⟨c, _ | ⟨d, rest⟩⟩⟩⟩
  · simp [grabYear] at h
  · simp [grabYear] at h
  · simp [grabYear] at h
  · simp [grabYear] at h
  · unfold grabYear at h
    dsimp only at h
    by_cases hc : a.isDigit = true ∧ b.isDigit = true ∧ c.isDigit = true ∧ d.isDigit = true
    · rw [if_pos hc] at h
      injection h with h2
      subst h2
      refine ⟨?_, rfl⟩
      simp [hc.1, hc.2.1, hc.2.2.1, hc.2.2.2]
    · rw [if_neg hc] at h
      exact absurd h (by simp)

/-- The separator-plus-year matcher returns four digits. -/
theorem afterD2_spec : ∀ cs c y, afterD2 cs = some (c, y) →
    y.all Char.isDigit = true ∧ y.length = 4 := by
  intro cs c y h
  rcases cs with _ | ⟨hd, tl⟩
  · simp [afterD2] at h
  · unfold afterD2 at h
    dsimp only at h
    by_cases hsep : isSep hd = true
    · rw [if_pos hsep] at h
      cases hgy : grabYear tl with
      | none =>
        rw [hgy] at h
        simp at h
      | some y2 =>
        rw [hgy] at h
        simp at h
        obtain ⟨h1, h2⟩ := h
        subst h2
        exact grabYear_spec tl _ hgy
    · rw [if_neg hsep] at h
      exact absurd h (by simp)

/-- The day-group matcher returns one or two digits followed by a valid
    separator-year tail. -/
theorem grabD2_spec : ∀ cs d2 c y, grabD2 cs = some (d2, c, y) →
    d2.all Char.isDigit = true ∧ 1 ≤ d2.length ∧ d2.length ≤ 2 ∧
    y.all Char.isDigit = true ∧ y.length = 4 := by
  intro cs d2 c y h
  unfold grabD2 at h
  rcases orElse_eq_some _ _ _ h with h2 | ⟨-, h1⟩
  · rcases cs with _ | ⟨a, _ | ⟨b, rest⟩⟩
    · simp at h2
    · simp at h2
    · dsimp only at h2
      by_cases hc : a.isDigit = true ∧ b.isDigit = true
      · rw [if_pos hc] at h2
        cases ha : afterD2 rest with
        | none =>
          rw [ha] at h2
          simp at h2
        | some p =>
          obtain ⟨pc, py⟩ := p
          rw [ha] at h2
          simp at h2
          obtain ⟨hh1, hh2, hh3⟩ := h2
          subst hh1
          subst hh3
          have hy := afterD2_spec rest pc py ha
          exact ⟨by simp [hc.1, hc.2], by simp, by simp, hy.1, hy.2⟩
      · rw [if_neg hc] at h2
        exact absurd h2 (by simp)
  · rcases cs with _ | ⟨a, rest⟩
    · simp at h1
    · dsimp only at h1
      by_cases hc : a.isDigit = true
      · simp only [if_pos hc] at h1
        cases ha : afterD2 rest with
        | none =>
          rw [ha] at h1
          simp at h1
        | some p =>
          obtain ⟨pc, py⟩ := p
          rw [ha] at h1
          simp at h1
          obtain ⟨hh1, hh2, hh3⟩ := h1
          subst hh1
          subst hh3
          have hy := afterD2_spec rest pc py ha
          exact ⟨by simp [hc], by simp, by simp, hy.1, hy.2⟩
      · simp only [if_neg hc] at h1
        exact absurd h1 (by simp)

/-- The separator-plus-day matcher keeps the day and year invariants. -/
theorem afterD1_spec : ∀ cs c1 d2 c2 y, afterD1 cs = some (c1, d2, c2, y) →
    d2.all Char.isDigit = true ∧ 1 ≤ d2.length ∧ d2.length ≤ 2 ∧
    y.all Char.isDigit = true ∧ y.length = 4 := by
  intro cs c1 d2 c2 y h
  rcases cs with _ | ⟨hd, tl⟩
  · simp [afterD1] at h
  · unfold afterD1 at h
    dsimp only at h
    by_cases hsep : isSep hd = true
    · rw [if_pos hsep] at h
      cases hg : grabD2 tl with
      | none =>
        rw [hg] at h
        simp at h
      | some q =>
        obtain ⟨qd2, qc2, qy⟩ := q
        rw [hg] at h
        simp at h
        obtain ⟨hh1, hh2, hh3, hh4⟩ := h
        subst hh2
        subst hh4
        exact grabD2_spec tl qd2 qc2 qy hg
    · rw [if_neg hsep] at h
      exact absurd h (by simp)

/-- A match of the full date-of-birth pattern satisfies the group shape
    invariant. -/
theorem matchDobAt_spec : ∀ cs d1 c1 d2 c2 y,
    matchDobAt cs = some (d1, c1, d2, c2, y) → DobParts d1 d2 y := by
  intro cs d1 c1 d2 c2 y h
  unfold matchDobAt at h
  rcases orElse_eq_some _ _ _ h with h2 | ⟨-, h1⟩
  · rcases cs with _ | ⟨a, _ | ⟨b, rest⟩⟩
    · simp at h2
    · simp at h2
    · dsimp only at h2
      by_cases hc : a.isDigit = true ∧ b.isDigit = true
      · rw [if_pos hc] at h2
        cases ha : afterD1 rest with
        | none =>
          rw [ha] at h2
          simp at h2
        | some q =>
          obtain ⟨qc1, qd2, qc2, qy⟩ := q
          rw [ha] at h2
          simp at h2
          obtain ⟨hh1, hh2, hh3, hh4, hh5⟩ := h2
          subst hh1
          subst hh3
          subst hh5
          have hq := afterD1_spec rest qc1 qd2 qc2 qy ha
          exact ⟨by simp [hc.1, hc.2], by simp, by simp,
            hq.1, hq.2.1, hq.2.2.1, hq.2.2.2.1, hq.2.2.2.2⟩
      · rw [if_neg hc] at h2
        exact absurd h2 (by simp)
  · rcases cs with _ | ⟨a, rest⟩
    · simp at h1
    · dsimp only at h1
      by_cases hc : a.isDigit = true
      · simp only [if_pos hc] at h1
        cases ha : afterD1 rest with
        | none =>
          rw [ha] at h1
          simp at h1
        | some q =>
          obtain ⟨qc1, qd2, qc2, qy⟩ := q
          rw [ha] at h1
          simp at h1
          obtain ⟨hh1, hh2, hh3, hh4, hh5⟩ := h1
          subst hh1
          subst hh3
          subst hh5
          have hq := afterD1_spec rest qc1 qd2 qc2 qy ha
          exact ⟨by simp [hc], by simp, by simp,
            hq.1, hq.2.1, hq.2.2.1, hq.2.2.2.1, hq.2.2.2.2⟩
      · simp only [if_neg hc] at h1
        exact absurd h1 (by simp)

/-- The leftmost regex match satisfies the group shape invariant. -/
theorem dobSearch_spec : ∀ cs d1 c1 d2 c2 y,
    dobSearch cs = some (d1, c1, d2, c2, y) → DobParts d1 d2 y := by
  intro cs
  induction cs with
  | nil =>
    intro d1 c1 d2 c2 y h
    simp [dobSearch] at h
  | cons c cs ih =>
    intro d1 c1 d2 c2 y h
    unfold dobSearch at h
    cases hm : matchDobAt (c :: cs) with
    | some r =>
      rw [hm] at h
      have h2 : some r = some (d1, c1, d2, c2, y) := h
      injection h2 with h3
      subst h3
      exact matchDobAt_spec (c :: cs) d1 c1 d2 c2 y hm
    | none =>
      rw [hm] at h
      exact ih d1 c1 d2 c2 y h

/-- Splitting a separator-free chunk. -/
theorem splitOnChar_sepfree (sep : Char) :
    ∀ a : List Char, (∀ c ∈ a, c ≠ sep) → splitOnChar sep a = [a] := by
  intro a
  induction a with
  | nil => intro _; rfl
  | cons x t ih =>
    intro h
    have hx : x ≠ sep := h x (by simp)
    have ht := ih (fun c hc => h c (by simp [hc]))
    simp [splitOnChar, hx, ht]

/-- Splitting peels off a separator-free chunk before a separator. -/
theorem splitOnChar_append (sep : Char) :
    ∀ (a rest : List Char), (∀ c ∈ a, c ≠ sep) →
      splitOnChar sep (a ++ sep :: rest) = a :: splitOnChar sep rest := by
  intro a
  induction a with
  | nil =>
    intro rest _
    simp [splitOnChar]
  | cons x t ih =>
    intro rest h
    have hx : x ≠ sep := h x (by simp)
    have ht := ih rest (fun c hc => h c (by simp [hc]))
    simp [splitOnChar, hx, ht]

/-- C7 counterexample: the utterance contains the valid date 01/02/2003
    as a substring (extraction on it alone succeeds), but the extractor
    validates only the first regex match 13/13/2025, which fails
    strptime, so nothing is extracted. -/
theorem c7_counterexample :
    extractDOB none "13/13/2025 01/02/2003" = none ∧
    infixOf "01/02/2003".data "13/13/2025 01/02/2003".data = true ∧
    extractDOB none "01/02/2003" = some "01/02/2003" := by decide

/-- C7 amended: extraction never overwrites an existing date_of_birth;
    it validates only the first regex match of the utterance, and
    whenever it sets a value, that value parses as a valid MM/DD/YYYY
    calendar date with separators normalised to the slash. -/
theorem c7_dob_extraction :
    (∀ msg d, extractDOB (some d) msg = some d) ∧
    (∀ msg r, extractDOB none msg = some r → (parseMDY r).isSome = true) ∧
    extractDOB none "born 3-14-1990" = some "3/14/1990" := by
  refine ⟨?_, ?_, by decide⟩
  · intro msg d
    unfold extractDOB
    cases h : dobSearch msg.data with
    | none => rfl
    | some q =>
      obtain ⟨d1, s1, d2, s2, y⟩ := q
      rfl
  · intro msg r h
    cases hq : dobSearch msg.data with
    | none =>
      unfold extractDOB at h
      rw [hq] at h
      exact absurd h (by simp)
    | some q =>
      obtain ⟨d1, s1, d2, s2, y⟩ := q
      have hEq : extractDOB none msg =
          (if 1 ≤ natOfDigits y ∧ 1 ≤ natOfDigits d1 ∧ natOfDigits d1 ≤ 12 ∧
              1 ≤ natOfDigits d2 ∧
              natOfDigits d2 ≤ daysInMonth (natOfDigits y) (natOfDigits d1) then
            some ⟨d1 ++ '/' :: (d2 ++ '/' :: y)⟩
          else none) := by
        unfold extractDOB
        rw [hq]
      rw [hEq] at h
      split at h
      next hc =>
        injection h with h2
        subst h2
        obtain ⟨hd1, hl1a, hl1b, hd2, hl2a, hl2b, hy, hylen⟩ :=
          dobSearch_spec msg.data d1 s1 d2 s2 y hq
        have hno1 : ∀ c ∈ d1, c ≠ '/' :=
          fun c hc2 => digit_ne_slash c (List.all_eq_true.mp hd1 c hc2)
        have hno2 : ∀ c ∈ d2, c ≠ '/' :=
          fun c hc2 => digit_ne_slash c (List.all_eq_true.mp hd2 c hc2)
        have hno3 : ∀ c ∈ y, c ≠ '/' :=
          fun c hc2 => digit_ne_slash c (List.all_eq_true.mp hy c hc2)
        have hsplit : splitOnChar '/' (d1 ++ '/' :: (d2 ++ '/' :: y)) = [d1, d2, y] := by
          rw [splitOnChar_append '/' d1 _ hno1, splitOnChar_append '/' d2 _ hno2,
            splitOnChar_sepfree '/' y hno3]
        have hdata : (⟨d1 ++ '/' :: (d2 ++ '/' :: y)⟩ : String).data =
            d1 ++ '/' :: (d2 ++ '/' :: y) := rfl
        have hpm : parseMDY ⟨d1 ++ '/' :: (d2 ++ '/' :: y)⟩ =
            some ⟨natOfDigits y, natOfDigits d1, natOfDigits d2⟩ := by
          unfold parseMDY
          rw [hdata, hsplit]
          dsimp only
          rw [if_pos ⟨hl1a, hl1b, hd1, hl2a, hl2b, hd2, hylen, hy⟩]
          rw [if_pos hc]
        rw [hpm]
        rfl
      next =>
        exact absurd h (by simp)

/-- Witness for C7 on a concrete hyphen-separated utterance. -/
theorem c7_dob_extraction_witness :
    extractDOB none "born 3-14-1990" = some "3/14/1990" ∧
    (parseMDY "3/14/1990").isSome = true := by
  exact ⟨by decide, c7_dob_extraction.2.1 "born 3-14-1990" "3/14/1990" (by decide)⟩

end MedSched
